import Mathlib

/-!
Verification of the avr-sts-humeai session bridge against its source.

Byte buffers (Node `Buffer`) are modelled as `List Nat`, each element a byte
value. Strings sent over the sockets are modelled as Lean `String`s. The
per-connection session of `src/index.js` is modelled as a state-transition
function producing a list of observable actions (socket sends and closes).
-/

set_option autoImplicit false

namespace AvrHume

/-! ## Byte-buffer primitives (Node Buffer operations used by the source) -/

/-- Byte codes of the ASCII string "RIFF". -/
def riffCodes : List Nat := [82, 73, 70, 70]

/-- Byte codes of the ASCII string "WAVE". -/
def waveCodes : List Nat := [87, 65, 86, 69]

/-- Byte codes of the ASCII string "data" (the data-chunk marker). -/
def dataCodes : List Nat := [100, 97, 116, 97]

/-- Byte codes of the ASCII string "fmt " (the fmt-chunk marker). -/
def fmtCodes : List Nat := [102, 109, 116, 32]

/-- Model of `buffer.toString("ascii", i, j)` compared as a byte list: Node
ascii decoding unsets the high bit of every byte before decoding. -/
def asciiSlice (b : List Nat) (i j : Nat) : List Nat :=
  ((b.drop i).take (j - i)).map (fun x => x % 128)

/-- Model of `buffer.readUInt32LE(i)` at an offset known to be in range
(the caller guards `offset + 8 <= buffer.length`). -/
def readUInt32LE (b : List Nat) (i : Nat) : Nat :=
  b.getD i 0 + 256 * b.getD (i + 1) 0 + 65536 * b.getD (i + 2) 0 +
    16777216 * b.getD (i + 3) 0

/-- Model of `buffer.readUInt16LE(i)`: Node throws ERR_OUT_OF_RANGE unless
`i + 2 <= buffer.length`; `none` models the throw. -/
def readUInt16LEOpt (b : List Nat) (i : Nat) : Option Nat :=
  if i + 2 ≤ b.length then some (b.getD i 0 + 256 * b.getD (i + 1) 0) else none

/-- Model of `buffer.readUInt32LE(i)` with the Node range check; `none`
models the ERR_OUT_OF_RANGE throw. -/
def readUInt32LEOpt (b : List Nat) (i : Nat) : Option Nat :=
  if i + 4 ≤ b.length then some (readUInt32LE b i) else none

/-- `startsWith needle hay`: the byte sequence `needle` occurs at the start
of `hay` (all of `needle` must fit). -/
def startsWith : List Nat → List Nat → Bool
  | [], _ => true
  | _ :: _, [] => false
  | a :: as, b :: bs => (a == b) && startsWith as bs

/-- Worker for `bufIndexOf`: scan the haystack left to right, reporting the
current absolute index on the first match. -/
def bufIndexOfGo (needle : List Nat) : List Nat → Nat → Option Nat
  | [], i => if startsWith needle [] then some i else none
  | a :: t, i =>
    if startsWith needle (a :: t) then some i else bufIndexOfGo needle t (i + 1)

/-- Model of `hay.indexOf(needle)` on Node Buffers: index of the first full
occurrence of `needle`, or `none` (Node returns -1). -/
def bufIndexOf (hay needle : List Nat) : Option Nat :=
  bufIndexOfGo needle hay 0

/-- Model of `buffer.slice(i, j)` / `buffer.subarray(i, j)` (clamping). -/
def sliceBytes (b : List Nat) (i j : Nat) : List Nat :=
  (b.drop i).take (j - i)

/-! ## src/index.js stripWavHeader (chunk-walking variant, lines 163-191) -/

/-- The chunk walk of `stripWavHeader` in src/index.js: starting at an
offset, read (4-byte id, 4-byte LE size) headers; on the `data` chunk return
its payload clamped to the buffer end; otherwise skip to the next chunk; if
the walk runs off the buffer, return the whole original buffer. -/
def findDataChunk (b : List Nat) (offset : Nat) : List Nat :=
  if _h : offset + 8 ≤ b.length then
    let chunkSize := readUInt32LE b (offset + 4)
    let dataStart := offset + 8
    if asciiSlice b offset (offset + 4) = dataCodes then
      sliceBytes b dataStart (min (dataStart + chunkSize) b.length)
    else
      findDataChunk b (dataStart + chunkSize)
  else b
termination_by b.length - offset
decreasing_by omega

/-- Model of `stripWavHeader` in src/index.js: RIFF/WAVE magic checks via
Node ascii decoding (high bit masked), then the chunk walk from offset 12.
A falsy buffer, a buffer shorter than 44 bytes, or a failed magic check
returns the buffer unchanged. -/
def stripWavHeaderJs (b : List Nat) : List Nat :=
  if b.length < 44 ∨ asciiSlice b 0 4 ≠ riffCodes ∨ asciiSlice b 8 12 ≠ waveCodes then
    b
  else
    findDataChunk b 12

/-! ## src/src/lib.ts stripWavHeader and parseWav (marker-search variants) -/

/-- Model of `stripWavHeader` in src/src/lib.ts: find the `data` marker via
`indexOf` limited to the first 200 bytes; on a miss return the original
buffer, otherwise drop everything up to marker + 8. -/
def stripWavHeaderLib (b : List Nat) : List Nat :=
  match bufIndexOf (b.take 200) dataCodes with
  | none => b
  | some dataIndex => b.drop (dataIndex + 8)

/-- Result of `parseWav`: a parsed record, the JS `null`, or a thrown
range error from an out-of-range Buffer read. -/
structure WavInfo where
  sampleRate : Nat
  channels : Nat
  bitsPerSample : Nat
  pcmData : List Nat
deriving DecidableEq, Repr

/-- Outcome of running `parseWav`: `ok`, the explicit `null` return, or an
uncaught RangeError thrown by a Buffer read. -/
inductive ParseResult where
  | ok (w : WavInfo)
  | nullRes
  | thrown
deriving DecidableEq, Repr

/-- Model of `parseWav` in src/unnamed/part_000 (WAV parsing utilities):
locate `fmt ` within the first 200 bytes, read channels / sample rate /
bits-per-sample at their offsets inside the fmt chunk (each read may throw),
locate `data` within the first 200 bytes, and return the info with the
payload view after marker + 8. -/
def parseWav (b : List Nat) : ParseResult :=
  match bufIndexOf (b.take 200) fmtCodes with
  | none => .nullRes
  | some fmtIndex =>
    -- fmtDataStart = fmtIndex + 8 (skip marker and chunk size)
    match readUInt16LEOpt b (fmtIndex + 8 + 2) with
    | none => .thrown
    | some channels =>
      match readUInt32LEOpt b (fmtIndex + 8 + 4) with
      | none => .thrown
      | some sampleRate =>
        match readUInt16LEOpt b (fmtIndex + 8 + 14) with
        | none => .thrown
        | some bitsPerSample =>
          match bufIndexOf (b.take 200) dataCodes with
          | none => .nullRes
          | some dataIndex =>
            .ok ⟨sampleRate, channels, bitsPerSample, b.drop (dataIndex + 8)⟩

/-! ## src/unnamed/part_001 stripWavHeader (explicit-loop variant) -/

/-- The search loop of the part_001 `stripWavHeader`: for `i` from the
current index while the remaining iteration budget lasts, test whether
`buffer.slice(i, i + 4)` equals the data marker (a short slice near the
buffer end never equals the 4-byte marker). -/
def loopFindData (b : List Nat) : Nat → Nat → Option Nat
  | 0, _ => none
  | n + 1, i =>
    if (b.drop i).take 4 = dataCodes then some i else loopFindData b n (i + 1)

/-- Model of `stripWavHeader` in src/unnamed/part_001: scan indices
`0 <= i < min(length, 200)` for a slice equal to the data marker; on a miss
return the original buffer, otherwise drop everything up to marker + 8. -/
def stripWavHeaderLoop (b : List Nat) : List Nat :=
  match loopFindData b (min b.length 200) 0 with
  | none => b
  | some dataIndex => b.drop (dataIndex + 8)

/-- Decidable scan used to state the 200-byte search-limit property: is
there an occurrence of `needle` starting at some index `i < n`? -/
def markerWithin (needle : List Nat) : List Nat → Nat → Bool
  | _, 0 => false
  | l, n + 1 => startsWith needle l || markerWithin needle l.tail n

/-! ## Chunker (src/src/index.ts sendAudioInChunks, lines 127-156) -/

/-- The splitting loop of sendAudioInChunks: take a chunk of `C` bytes and
continue on the rest while the buffer is nonempty (the source increments
`offset` by `CHUNK_SIZE`; `subarray` clamps the final chunk). -/
def splitChunks (C : Nat) (l : List Nat) : List (List Nat) :=
  if _h : l = [] ∨ C = 0 then []
  else l.take C :: splitChunks C (l.drop C)
termination_by l.length
decreasing_by
  push_neg at _h
  obtain ⟨hl, hC⟩ := _h
  have h1 : 0 < l.length := List.length_pos.mpr hl
  simp only [List.length_drop]
  omega

/-- Model of sendAudioInChunks with the chunk size as a parameter (the
source fixes CHUNK_SIZE = 9600): a buffer no longer than one chunk is sent
whole in a single sendAudioInput; otherwise the loop splits it. -/
def sendAudioInChunks (C : Nat) (buf : List Nat) : List (List Nat) :=
  if buf.length ≤ C then [buf] else splitChunks C buf

/-! ## Session bridge model (src/index.js, current variant, lines 119-527) -/

/-- Default of HUMEAI_WELCOME_MESSAGE. -/
def welcomeMessage : String := "Hello, how can I help you today?"

/-- State of an upstream WebSocket handle held by the session. -/
inductive WsSt where
  | connecting
  | opened
deriving DecidableEq, Repr

/-- Messages the bridge sends on the upstream (HumeAI) socket. -/
inductive UpMsg where
  | audioInput (data : String) (customSessionId : Option String)
  | assistantInput (text : String)
  | toolResponse (toolCallId : String) (content : String)
deriving DecidableEq, Repr

/-- Messages the bridge sends to the client socket. `audioFrom d` records
that the audio envelope was produced by converting provider payload `d`
(strip + resample; the resampler is the external capability excluded by
spec section 1). -/
inductive DownMsg where
  | audioFrom (providerData : String)
  | interruption
  | transcript (role : String) (text : String)
  | errorMsg (message : String)
deriving DecidableEq, Repr

/-- Observable actions of one processing step. -/
inductive Act where
  | sendUp (m : UpMsg)
  | sendClient (m : DownMsg)
  | closeUp
  | closeClient
deriving DecidableEq, Repr

/-- Parsed client-protocol messages; `audio none` models a message whose
audio field is absent (undefined). -/
inductive ClientMsg where
  | init (uuid : String)
  | audio (audio : Option String)
  | other (t : String)
deriving DecidableEq, Repr

/-- Parsed upstream (HumeAI) messages consumed by the bridge. -/
inductive HumeMsg where
  | audioOutput (data : String)
  | userInterruption
  | userMessage (content : String)
  | assistantMessage (content : String)
  | toolCall (toolCallId name parameters : String)
  | unknownType (t : String)
deriving DecidableEq, Repr

/-- A tool handler receives (sessionUuid, raw parameter string) and returns
serialized content or a failure message; `JSON.parse` of the parameters and
the awaited handler body are folded into one function whose `Except.error`
carries the thrown error message. The registry itself (loadTools.js) is not
under src/; per spec section 4.5 it resolves a name to a handler or reports
not found, so it is a parameter of the model. -/
abbrev ToolRegistry := String → Option (Option String → String → Except String String)

/-- Per-connection state of handleClientConnection in src/index.js:
sessionUuid, the upstream socket handle with its readyState, the number of
initializeHumeAIConnection invocations (dial attempts), the audioBuffer of
pending base64 chunks, and whether the client socket is still OPEN. -/
structure Sess where
  uuid : Option String
  ws : Option WsSt
  dials : Nat
  queue : List String
  clientOpen : Bool
deriving DecidableEq, Repr

/-- Session state right after the client connection is accepted. -/
def sess0 : Sess :=
  { uuid := none, ws := none, dials := 0, queue := [], clientOpen := true }

/-- A session whose upstream dial is in progress. -/
def sessConnecting : Sess := { sess0 with ws := some WsSt.connecting }

/-- A session whose upstream socket is OPEN. -/
def sessOpened : Sess := { sess0 with ws := some WsSt.opened }

/-- JSON.stringify of an object with one error field holding an escape-free
string (the braces are written as character escapes). -/
def jsonErrorObj (s : String) : String := "\x7b\"error\":\"" ++ s ++ "\"\x7d"

/-- JS truthiness of message.audio: an absent field and "" are falsy. -/
def audioTruthy : Option String → Bool
  | none => false
  | some s => s != ""

/-- Client message switch of src/index.js lines 405-434, after JSON.parse
succeeded. init records the uuid and unconditionally dials a new upstream
connection (initializeHumeAIConnection; URL building and tool schema
loading are configuration, modelled as a fresh connecting handle plus a
dial-count increment). audio forwards at once when the upstream socket is
OPEN and buffers otherwise. Unknown types are logged and ignored. -/
def clientStep (s : Sess) : ClientMsg → Sess × List Act
  | .init u =>
    ({ s with uuid := some u, ws := some .connecting, dials := s.dials + 1 }, [])
  | .audio a =>
    if audioTruthy a then
      match s.ws with
      | some .opened => (s, [.sendUp (.audioInput (a.getD "") s.uuid)])
      | _ => ({ s with queue := s.queue ++ [a.getD ""] }, [])
    else (s, [])
  | .other _ => (s, [])

/-- The upstream open handler (src/index.js lines 277-293): send the
buffered chunks in order (a buffered chunk is already a base64 string, and
calling toString("base64") on a JS string returns the string itself), clear
the buffer, then send the assistant_input welcome message. -/
def wsOpenStep (s : Sess) : Sess × List Act :=
  ({ s with ws := some .opened, queue := [] },
    s.queue.map (fun c => Act.sendUp (.audioInput c s.uuid)) ++
      [Act.sendUp (.assistantInput welcomeMessage)])

/-- cleanup of src/index.js lines 450-467: close the upstream socket when a
handle is present and null the handle, close the client socket when it is
still OPEN, clear the audio buffer. Both close calls are wrapped in
try/catch in the source; the nulled handle and the readyState guard make a
second invocation emit nothing. -/
def cleanup (s : Sess) : Sess × List Act :=
  ({ s with ws := none, clientOpen := false, queue := [] },
    (if s.ws.isSome then [Act.closeUp] else []) ++
      (if s.clientOpen then [Act.closeClient] else []))

/-- Upstream message switch (src/index.js lines 295-376). tool_call
resolves the handler through the registry: an unknown name is answered at
once with a Tool-not-found error content; a failing handler is answered
with an Error-executing content carrying the thrown message; a succeeding
handler is answered with its serialized content. All three leave the
session state untouched. -/
def humeStep (reg : ToolRegistry) (s : Sess) : HumeMsg → Sess × List Act
  | .audioOutput d => (s, [.sendClient (.audioFrom d)])
  | .userInterruption => (s, [.sendClient .interruption])
  | .userMessage t => (s, [.sendClient (.transcript "user" t)])
  | .assistantMessage t => (s, [.sendClient (.transcript "agent" t)])
  | .toolCall callId name params =>
    match reg name with
    | none =>
      (s, [.sendUp (.toolResponse callId
        (jsonErrorObj ("Tool " ++ name ++ " not found")))])
    | some handler =>
      match handler s.uuid params with
      | .ok content => (s, [.sendUp (.toolResponse callId content)])
      | .error msg =>
        (s, [.sendUp (.toolResponse callId
          (jsonErrorObj ("Error executing tool " ++ name ++ ": " ++ msg)))])
  | .unknownType _ => (s, [])

/-- Events multiplexed into one session: a parsed client message, the
upstream open and close events, the client close/error event, and an
upstream message. -/
inductive Ev where
  | clientMsg (m : ClientMsg)
  | wsOpen
  | wsClose
  | clientClose
  | hume (m : HumeMsg)

/-- One step of the session state machine; wsClose and clientClose both run
cleanup (handlers at src/index.js lines 389-392 and 437-445). -/
def stepJs (reg : ToolRegistry) (s : Sess) : Ev → Sess × List Act
  | .clientMsg m => clientStep s m
  | .wsOpen => wsOpenStep s
  | .wsClose => cleanup s
  | .clientClose => cleanup s
  | .hume m => humeStep reg s m

/-- Run a sequence of events, concatenating the emitted actions. -/
def runJs (reg : ToolRegistry) (s : Sess) : List Ev → Sess × List Act
  | [] => (s, [])
  | e :: es =>
    let p := stepJs reg s e
    let q := runJs reg p.1 es
    (q.1, p.2 ++ q.2)

/-- The raw client-socket message handler of src/index.js lines 405-434:
JSON.parse(data) is not wrapped in try/catch there, so a payload that is
not valid JSON (modelled as none) throws out of the handler; Except.error
models the uncaught SyntaxError. -/
def onClientDataJs (s : Sess) : Option ClientMsg → Except String (Sess × List Act)
  | none => .error "SyntaxError: JSON.parse"
  | some m => .ok (clientStep s m)

/-- The catch branch of the client message handler in src/src/index.ts
lines 186-212: the error is logged and then clientWs.close() is called, so
a single malformed message closes the client socket in that variant. -/
def onClientDataTsMalformed (s : Sess) : Sess × List Act :=
  ({ s with clientOpen := false }, [Act.closeClient])

/-! ## Concrete inputs used by the example theorems -/

/-- C3 example buffer: RIFF header, fmt chunk (PCM, mono, 8000 Hz, 16 bit),
data chunk with payload [1, 2, 3, 4]. -/
def wavExample : List Nat :=
  [82, 73, 70, 70, 36, 0, 0, 0, 87, 65, 86, 69,
   102, 109, 116, 32, 16, 0, 0, 0, 1, 0, 1, 0, 64, 31, 0, 0,
   128, 62, 0, 0, 2, 0, 16, 0,
   100, 97, 116, 97, 4, 0, 0, 0, 1, 2, 3, 4]

/-- A buffer that does not start with RIFF but has the data marker at
offset 0, followed by a 4-byte size field and two payload bytes. -/
def dataOnlyBuf : List Nat := [100, 97, 116, 97, 0, 0, 0, 0, 88, 89]

/-- A buffer whose only (well-formed) data chunk starts at offset 200,
just past the 200-byte search limit. -/
def lateData : List Nat :=
  List.replicate 200 0 ++ [100, 97, 116, 97, 4, 0, 0, 0, 1, 2, 3, 4]

/-- A buffer consisting of only the fmt marker: parseWav finds fmt at
index 0 and the following readUInt16LE at offset 10 is out of range. -/
def fmtOnlyBuf : List Nat := [102, 109, 116, 32]

/-- Registry with no tools registered. -/
def emptyRegistry : ToolRegistry := fun _ => none

/-- A handler that always fails with message "boom". -/
def failingHandler : Option String → String → Except String String :=
  fun _ _ => .error "boom"

/-- Registry resolving every name to the failing handler. -/
def failingRegistry : ToolRegistry := fun _ => some failingHandler

/-! ## Helper lemmas about the marker search -/

theorem drop_succ_eq_tail_drop (l : List Nat) (i : Nat) :
    l.drop (i + 1) = l.tail.drop i := by
  cases l <;> simp

theorem startsWith_iff_take (needle : List Nat) :
    ∀ h : List Nat, startsWith needle h = true ↔ h.take needle.length = needle := by
  induction needle with
  | nil => intro h; simp [startsWith]
  | cons a as ih =>
    intro h
    cases h with
    | nil => simp [startsWith]
    | cons b bs =>
      simp only [startsWith, List.length_cons, List.take_succ_cons, List.cons.injEq,
        Bool.and_eq_true, beq_iff_eq]
      constructor
      · rintro ⟨h1, h2⟩; exact ⟨h1.symm, (ih bs).mp h2⟩
      · rintro ⟨h1, h2⟩; exact ⟨h1.symm, (ih bs).mpr h2⟩

theorem startsWith_of_take (needle : List Nat) :
    ∀ (h : List Nat) (k : Nat), startsWith needle (h.take k) = true →
      startsWith needle h = true := by
  induction needle with
  | nil => intro h k _; rfl
  | cons a as ih =>
    intro h k hs
    cases h with
    | nil => simp at hs; exact hs
    | cons b bs =>
      cases k with
      | zero => simp [startsWith] at hs
      | succ k =>
        simp only [List.take_succ_cons, startsWith, Bool.and_eq_true] at hs ⊢
        exact ⟨hs.1, ih bs k hs.2⟩

theorem markerWithin_false (needle : List Nat) :
    ∀ (n : Nat) (l : List Nat), markerWithin needle l n = false →
      ∀ i < n, startsWith needle (l.drop i) = false := by
  intro n
  induction n with
  | zero => intro l _ i hi; omega
  | succ n ih =>
    intro l hm i hi
    simp only [markerWithin, Bool.or_eq_false_iff] at hm
    cases i with
    | zero => exact hm.1
    | succ i =>
      rw [drop_succ_eq_tail_drop]
      exact ih l.tail hm.2 i (by omega)

theorem bufIndexOfGo_none (needle : List Nat) :
    ∀ (l : List Nat) (i : Nat),
      (∀ j, startsWith needle (l.drop j) = false) → bufIndexOfGo needle l i = none := by
  intro l
  induction l with
  | nil =>
    intro i hj
    have h0 := hj 0
    simp only [List.drop_nil] at h0
    simp [bufIndexOfGo, h0]
  | cons a t ih =>
    intro i hj
    have h0 := hj 0
    simp only [List.drop_zero] at h0
    have hrec : ∀ j, startsWith needle (t.drop j) = false := by
      intro j
      have := hj (j + 1)
      rwa [List.drop_succ_cons] at this
    simp [bufIndexOfGo, h0, ih (i + 1) hrec]

theorem dataSearch_none (b : List Nat) (H : markerWithin dataCodes b 200 = false) :
    bufIndexOf (b.take 200) dataCodes = none := by
  apply bufIndexOfGo_none
  intro j
  by_cases hj : j < 200
  · have hH := markerWithin_false dataCodes 200 b H j hj
    by_contra hc
    rw [Bool.not_eq_false, List.drop_take] at hc
    have hfull := startsWith_of_take dataCodes (b.drop j) (200 - j) hc
    rw [hfull] at hH
    exact absurd hH (by decide)
  · have hnil : (b.take 200).drop j = [] := by
      apply List.drop_eq_nil_of_le
      have := List.length_take 200 b
      omega
    rw [hnil]
    decide

theorem loopFindData_none_aux (b : List Nat) :
    ∀ n i : Nat, (∀ j, j < i + n → (b.drop j).take 4 ≠ dataCodes) →
      loopFindData b n i = none := by
  intro n
  induction n with
  | zero => intro i _; rfl
  | succ n ih =>
    intro i hj
    have h0 : (b.drop i).take 4 ≠ dataCodes := hj i (by omega)
    simp only [loopFindData, if_neg h0]
    exact ih (i + 1) (fun j hlt => hj j (by omega))

theorem loopFindData_none (b : List Nat) (H : markerWithin dataCodes b 200 = false) :
    loopFindData b (min b.length 200) 0 = none := by
  apply loopFindData_none_aux
  intro j hj hc
  have hs : startsWith dataCodes (b.drop j) = true := by
    rw [startsWith_iff_take]
    exact hc
  have hH := markerWithin_false dataCodes 200 b H j (by omega)
  rw [hs] at hH
  exact absurd hH (by decide)

/-! ## Helper lemmas about the chunker -/

theorem splitChunks_nil (C : Nat) : splitChunks C [] = [] := by
  rw [splitChunks]; simp

theorem splitChunks_cons (C : Nat) (l : List Nat) (hl : l ≠ []) (hC : C ≠ 0) :
    splitChunks C l = l.take C :: splitChunks C (l.drop C) := by
  rw [splitChunks]
  simp [hl, hC]

theorem splitChunks_flatten (C : Nat) (hC : C ≠ 0) :
    ∀ (n : Nat) (l : List Nat), l.length ≤ n → (splitChunks C l).flatten = l := by
  intro n
  induction n with
  | zero =>
    intro l h
    have : l = [] := List.eq_nil_of_length_eq_zero (by omega)
    subst this
    simp [splitChunks_nil]
  | succ n ih =>
    intro l h
    by_cases hl : l = []
    · subst hl; simp [splitChunks_nil]
    · rw [splitChunks_cons C l hl hC]
      have hlen : 0 < l.length := List.length_pos.mpr hl
      have hd : (l.drop C).length ≤ n := by
        rw [List.length_drop]; omega
      rw [List.flatten_cons, ih (l.drop C) hd, List.take_append_drop]

theorem splitChunks_count (C : Nat) (hC : C ≠ 0) :
    ∀ (n : Nat) (l : List Nat), l.length ≤ n →
      (splitChunks C l).length = (l.length + C - 1) / C := by
  intro n
  induction n with
  | zero =>
    intro l h
    have hnil : l = [] := List.eq_nil_of_length_eq_zero (by omega)
    subst hnil
    rw [splitChunks_nil]
    rw [show ([] : List Nat).length + C - 1 = C - 1 by simp]
    rw [Nat.div_eq_of_lt (by omega)]
    rfl
  | succ n ih =>
    intro l h
    by_cases hl : l = []
    · subst hl
      rw [splitChunks_nil]
      rw [show ([] : List Nat).length + C - 1 = C - 1 by simp]
      rw [Nat.div_eq_of_lt (by omega)]
      rfl
    · rw [splitChunks_cons C l hl hC]
      have hlen : 0 < l.length := List.length_pos.mpr hl
      have hd : (l.drop C).length ≤ n := by rw [List.length_drop]; omega
      rw [List.length_cons, ih (l.drop C) hd, List.length_drop]
      by_cases hle : l.length ≤ C
      · rw [show l.length - C = 0 by omega]
        rw [show 0 + C - 1 = C - 1 by omega]
        rw [Nat.div_eq_of_lt (show C - 1 < C by omega)]
        rw [show l.length + C - 1 = (l.length - 1) + C by omega]
        rw [Nat.add_div_right _ (by omega), Nat.div_eq_of_lt (show l.length - 1 < C by omega)]
      · rw [show l.length + C - 1 = (l.length - C + C - 1) + C by omega]
        rw [Nat.add_div_right _ (by omega)]

theorem splitChunks_ne_nil (C : Nat) (hC : C ≠ 0) :
    ∀ (n : Nat) (l : List Nat), l.length ≤ n → ∀ f ∈ splitChunks C l, f ≠ [] := by
  intro n
  induction n with
  | zero =>
    intro l h f hf
    have hnil : l = [] := List.eq_nil_of_length_eq_zero (by omega)
    subst hnil
    rw [splitChunks_nil] at hf
    simp at hf
  | succ n ih =>
    intro l h f hf
    by_cases hl : l = []
    · subst hl; rw [splitChunks_nil] at hf; simp at hf
    · rw [splitChunks_cons C l hl hC] at hf
      have hlen : 0 < l.length := List.length_pos.mpr hl
      have hd : (l.drop C).length ≤ n := by rw [List.length_drop]; omega
      rcases List.mem_cons.mp hf with h1 | h2
      · subst h1
        intro hc
        rw [List.take_eq_nil_iff] at hc
        rcases hc with hc | hc
        · exact hC hc
        · exact hl hc
      · exact ih (l.drop C) hd f h2

theorem splitChunks_len_le (C : Nat) (hC : C ≠ 0) :
    ∀ (n : Nat) (l : List Nat), l.length ≤ n → ∀ f ∈ splitChunks C l, f.length ≤ C := by
  intro n
  induction n with
  | zero =>
    intro l h f hf
    have hnil : l = [] := List.eq_nil_of_length_eq_zero (by omega)
    subst hnil
    rw [splitChunks_nil] at hf
    simp at hf
  | succ n ih =>
    intro l h f hf
    by_cases hl : l = []
    · subst hl; rw [splitChunks_nil] at hf; simp at hf
    · rw [splitChunks_cons C l hl hC] at hf
      have hlen : 0 < l.length := List.length_pos.mpr hl
      have hd : (l.drop C).length ≤ n := by rw [List.length_drop]; omega
      rcases List.mem_cons.mp hf with h1 | h2
      · subst h1
        rw [List.length_take]
        omega
      · exact ih (l.drop C) hd f h2

theorem splitChunks_dropLast_len (C : Nat) (hC : C ≠ 0) :
    ∀ (n : Nat) (l : List Nat), l.length ≤ n →
      ∀ f ∈ (splitChunks C l).dropLast, f.length = C := by
  intro n
  induction n with
  | zero =>
    intro l h f hf
    have hnil : l = [] := List.eq_nil_of_length_eq_zero (by omega)
    subst hnil
    rw [splitChunks_nil] at hf
    simp at hf
  | succ n ih =>
    intro l h f hf
    by_cases hl : l = []
    · subst hl; rw [splitChunks_nil] at hf; simp at hf
    · rw [splitChunks_cons C l hl hC] at hf
      have hlen : 0 < l.length := List.length_pos.mpr hl
      have hd : (l.drop C).length ≤ n := by rw [List.length_drop]; omega
      by_cases hrest : splitChunks C (l.drop C) = []
      · rw [hrest] at hf
        simp at hf
      · rw [List.dropLast_cons_of_ne_nil hrest] at hf
        rcases List.mem_cons.mp hf with h1 | h2
        · subst h1
          -- the rest is nonempty, so l.drop C is nonempty, so C < l.length
          have hdne : l.drop C ≠ [] := by
            intro hc
            rw [hc, splitChunks_nil] at hrest
            exact hrest rfl
          have : C < l.length := by
            by_contra hba
            exact hdne (List.drop_eq_nil_of_le (by omega))
          rw [List.length_take]
          omega
        · exact ih (l.drop C) hd f h2


/-! ## Claim theorems: container parsing (C2, C3, C10) -/

/-- C3: for a buffer composed of the container magic, a fmt chunk
declaring channels=1, sample rate=8000, bits-per-sample=16 and a data
chunk whose payload is [1, 2, 3, 4], parseWav returns sampleRate=8000,
channels=1, bitsPerSample=16 and a payload byte-equal to [1, 2, 3, 4]. -/
theorem parseWav_example_ok :
    parseWav wavExample = .ok ⟨8000, 1, 16, [1, 2, 3, 4]⟩ := by decide

/-- C2 counterexample: dataOnlyBuf does not begin with the container
magic (neither byte-wise nor under ascii decoding), yet the marker-search
stripWavHeader of src/src/lib.ts does not return it unchanged: it strips
through the data marker found at offset 0. -/
theorem lib_strip_changes_non_riff_buffer :
    dataOnlyBuf.take 4 ≠ riffCodes ∧
    asciiSlice dataOnlyBuf 0 4 ≠ riffCodes ∧
    stripWavHeaderLib dataOnlyBuf = [88, 89] ∧
    stripWavHeaderLib dataOnlyBuf ≠ dataOnlyBuf := by decide

/-- C2 amended: the chunk-walking container parser of src/index.js
returns the buffer unchanged (never failing) whenever the buffer is
shorter than 44 bytes, or its first 4 bytes do not ascii-decode (high bit
masked) to RIFF, or its bytes 8-11 do not ascii-decode to WAVE; the
marker-search variant of src/src/lib.ts performs no such magic check. -/
theorem jsstrip_unchanged_on_magic_fail (b : List Nat)
    (h : b.length < 44 ∨ asciiSlice b 0 4 ≠ riffCodes ∨ asciiSlice b 8 12 ≠ waveCodes) :
    stripWavHeaderJs b = b := by
  simp only [stripWavHeaderJs, if_pos h]

/-- C2 witness: a concrete non-container buffer is passed through. -/
theorem jsstrip_magic_fail_witness :
    (dataOnlyBuf.length < 44 ∨ asciiSlice dataOnlyBuf 0 4 ≠ riffCodes ∨
      asciiSlice dataOnlyBuf 8 12 ≠ waveCodes) ∧
    stripWavHeaderJs dataOnlyBuf = dataOnlyBuf :=
  ⟨by decide, jsstrip_unchanged_on_magic_fail dataOnlyBuf (by decide)⟩

/-- C10 counterexample: fmtOnlyBuf has no data-marker occurrence within
its first 200 bytes, yet parseWav throws a RangeError (the readUInt16LE
at offset 10 is out of range) instead of returning null. -/
theorem parseWav_throws_short_fmt :
    markerWithin dataCodes fmtOnlyBuf 200 = false ∧
    parseWav fmtOnlyBuf = .thrown ∧ parseWav fmtOnlyBuf ≠ .nullRes := by decide

/-- C10 amended: for every buffer with no data-marker occurrence starting
within the first 200 bytes, parseWav returns null or throws a RangeError
(the latter when a fmt marker is found too close to the buffer end for
the field reads), and both marker-search stripWavHeader variants return
the original buffer unchanged, even when a valid data chunk exists later
in the buffer. -/
theorem marker_search_limited_to_200 (b : List Nat)
    (H : markerWithin dataCodes b 200 = false) :
    (parseWav b = .nullRes ∨ parseWav b = .thrown) ∧
    stripWavHeaderLib b = b ∧ stripWavHeaderLoop b = b := by
  have hdata := dataSearch_none b H
  refine ⟨?_, ?_, ?_⟩
  · cases hf : bufIndexOf (b.take 200) fmtCodes with
    | none => simp [parseWav, hf]
    | some fi =>
      cases h1 : readUInt16LEOpt b (fi + 8 + 2) with
      | none => simp [parseWav, hf, h1]
      | some c =>
        cases h2 : readUInt32LEOpt b (fi + 8 + 4) with
        | none => simp [parseWav, hf, h1, h2]
        | some sr =>
          cases h3 : readUInt16LEOpt b (fi + 8 + 14) with
          | none => simp [parseWav, hf, h1, h2, h3]
          | some bps => simp [parseWav, hf, h1, h2, h3, hdata]
  · unfold stripWavHeaderLib
    rw [hdata]
  · unfold stripWavHeaderLoop
    rw [loopFindData_none b H]

/-- C10 witness: a buffer whose only data chunk starts at offset 200 is
not parsed: parseWav misses it and the strip variants pass it through. -/
theorem marker_search_200_witness :
    markerWithin dataCodes lateData 200 = false ∧
    ((parseWav lateData = .nullRes ∨ parseWav lateData = .thrown) ∧
      stripWavHeaderLib lateData = lateData ∧ stripWavHeaderLoop lateData = lateData) :=
  ⟨by decide, marker_search_limited_to_200 lateData (by decide)⟩


/-! ## Claim theorems: chunker (C4) -/

/-- C4 counterexample: on the empty buffer the chunker emits one empty
frame, so the frame count is 1 instead of ceil(0 / C) = 0 and an empty
frame is emitted, contradicting the claim at L = 0. -/
theorem chunker_empty_buffer_emits_empty_frame :
    sendAudioInChunks 9600 [] = [[]] ∧
    (sendAudioInChunks 9600 []).length ≠ (0 + 9600 - 1) / 9600 ∧
    [] ∈ sendAudioInChunks 9600 [] := by decide

/-- C4 amended: for every nonempty buffer and chunk size C > 0, the
emitted frames concatenate to the original buffer, the frame count is
ceil(length / C), no frame is empty, every non-final frame has length
exactly C, no frame exceeds C, and a buffer of at most one chunk is
emitted whole as a single frame (the empty buffer is instead emitted as
one empty frame, see the counterexample). -/
theorem chunker_round_trip (C : Nat) (buf : List Nat) (hC : 0 < C) (hbuf : buf ≠ []) :
    (sendAudioInChunks C buf).flatten = buf ∧
    (sendAudioInChunks C buf).length = (buf.length + C - 1) / C ∧
    (∀ f ∈ sendAudioInChunks C buf, f ≠ []) ∧
    (∀ f ∈ (sendAudioInChunks C buf).dropLast, f.length = C) ∧
    (∀ f ∈ sendAudioInChunks C buf, f.length ≤ C) ∧
    (buf.length ≤ C → sendAudioInChunks C buf = [buf]) := by
  have hC' : C ≠ 0 := by omega
  have hlen : 0 < buf.length := List.length_pos.mpr hbuf
  unfold sendAudioInChunks
  by_cases hle : buf.length ≤ C
  · rw [if_pos hle]
    refine ⟨by simp, ?_, ?_, ?_, ?_, fun _ => rfl⟩
    · rw [show ([buf] : List (List Nat)).length = 1 by rfl]
      rw [show buf.length + C - 1 = (buf.length - 1) + C by omega]
      rw [Nat.add_div_right _ hC, Nat.div_eq_of_lt (by omega)]
    · intro f hf
      rw [List.mem_singleton] at hf
      subst hf
      exact hbuf
    · intro f hf
      simp at hf
    · intro f hf
      rw [List.mem_singleton] at hf
      subst hf
      omega
  · rw [if_neg hle]
    exact ⟨splitChunks_flatten C hC' buf.length buf le_rfl,
      splitChunks_count C hC' buf.length buf le_rfl,
      splitChunks_ne_nil C hC' buf.length buf le_rfl,
      splitChunks_dropLast_len C hC' buf.length buf le_rfl,
      splitChunks_len_le C hC' buf.length buf le_rfl,
      fun hcon => absurd hcon hle⟩

/-- C4 witness: the round trip at a concrete three-byte buffer. -/
theorem chunker_round_trip_witness :
    (sendAudioInChunks 9600 [1, 2, 3]).flatten = [1, 2, 3] ∧
    (sendAudioInChunks 9600 [1, 2, 3]).length = (([1, 2, 3] : List Nat).length + 9600 - 1) / 9600 ∧
    (∀ f ∈ sendAudioInChunks 9600 [1, 2, 3], f ≠ []) ∧
    (∀ f ∈ (sendAudioInChunks 9600 [1, 2, 3]).dropLast, f.length = 9600) ∧
    (∀ f ∈ sendAudioInChunks 9600 [1, 2, 3], f.length ≤ 9600) ∧
    (([1, 2, 3] : List Nat).length ≤ 9600 → sendAudioInChunks 9600 [1, 2, 3] = [[1, 2, 3]]) :=
  chunker_round_trip 9600 [1, 2, 3] (by decide) (by decide)


/-! ## Claim theorems: session bridge (C1, C5, C6, C7, C8, C9) -/

/-- C1: every audio message received while the upstream socket is not yet
OPEN is appended to the pending audio buffer, and on the upstream open
event all buffered frames are sent upstream as audio_input envelopes in
exactly arrival order with no drops and no duplicates, followed only by
the welcome assistant_input; afterwards the buffer is empty and the
session is READY. -/
theorem audio_buffered_then_flushed_in_order (reg : ToolRegistry) (as : List String) :
    ∀ s : Sess, s.ws ≠ some WsSt.opened → (∀ a ∈ as, a ≠ "") →
      runJs reg s (as.map (fun a => Ev.clientMsg (.audio (some a))) ++ [Ev.wsOpen]) =
        ({ s with ws := some WsSt.opened, queue := [] },
          (s.queue ++ as).map (fun c => Act.sendUp (.audioInput c s.uuid)) ++
            [Act.sendUp (.assistantInput welcomeMessage)]) := by
  induction as with
  | nil =>
    intro s hws hne
    simp [runJs, stepJs, wsOpenStep]
  | cons a as ih =>
    intro s hws hne
    have ha : a ≠ "" := hne a (List.mem_cons_self a as)
    have hstep : clientStep s (.audio (some a)) = ({ s with queue := s.queue ++ [a] }, []) := by
      have ht : audioTruthy (some a) = true := by
        simp [audioTruthy, ha]
      cases hsw : s.ws with
      | none => simp [clientStep, ht, hsw]
      | some w =>
        cases w with
        | connecting => simp [clientStep, ht, hsw]
        | opened => exact absurd hsw hws
    have hws2 : ({ s with queue := s.queue ++ [a] } : Sess).ws ≠ some WsSt.opened := hws
    have hne2 : ∀ x ∈ as, x ≠ "" := fun x hx => hne x (List.mem_cons_of_mem a hx)
    simp only [List.map_cons, List.cons_append, runJs, stepJs, hstep, List.append_eq]
    rw [ih _ hws2 hne2]
    simp

/-- C1 witness: two concrete buffered chunks flushed in order on open. -/
theorem audio_buffered_flush_witness :
    runJs emptyRegistry sessConnecting
        (["YWJj", "ZGVm"].map (fun a => Ev.clientMsg (.audio (some a))) ++ [Ev.wsOpen]) =
      ({ sessConnecting with ws := some WsSt.opened, queue := [] },
        (sessConnecting.queue ++ ["YWJj", "ZGVm"]).map
            (fun c => Act.sendUp (.audioInput c sessConnecting.uuid)) ++
          [Act.sendUp (.assistantInput welcomeMessage)]) :=
  audio_buffered_then_flushed_in_order emptyRegistry ["YWJj", "ZGVm"] sessConnecting
    (by decide) (by decide)

/-- C5 counterexample: for unknown tool name foo the single response
content is the JSON error object with message "Tool foo not found"
(capital T, as written at src/index.js line 338), which differs from the
payload form claimed by the spec, "tool foo not found". -/
theorem unknown_tool_payload_casing :
    (humeStep emptyRegistry sess0 (.toolCall "A" "foo" "")).2 =
      [.sendUp (.toolResponse "A" (jsonErrorObj "Tool foo not found"))] ∧
    jsonErrorObj "Tool foo not found" ≠ jsonErrorObj "tool foo not found" :=
  ⟨rfl, by decide⟩

/-- C5 amended: an upstream tool call whose name does not resolve in the
registry produces exactly one tool_response carrying that call id and the
error content "Tool name not found", and leaves the session state
untouched (session stays open; later messages are processed the same
way). -/
theorem unknown_tool_single_error_response (reg : ToolRegistry) (s : Sess)
    (callId name params : String) (h : reg name = none) :
    humeStep reg s (.toolCall callId name params) =
      (s, [.sendUp (.toolResponse callId
        (jsonErrorObj ("Tool " ++ name ++ " not found")))]) := by
  simp [humeStep, h]

/-- C5 witness: the unknown-tool response at a concrete call. -/
theorem unknown_tool_response_witness :
    emptyRegistry "foo" = none ∧
    humeStep emptyRegistry sess0 (.toolCall "A" "foo" "ps") =
      (sess0, [.sendUp (.toolResponse "A"
        (jsonErrorObj ("Tool " ++ "foo" ++ " not found")))]) :=
  ⟨rfl, unknown_tool_single_error_response emptyRegistry sess0 "A" "foo" "ps" rfl⟩

/-- C6: a tool call whose resolved handler fails produces exactly one
tool_response carrying that call id and an error content that includes
the failure message, and leaves the session state untouched (the failure
is never propagated as a session error). -/
theorem handler_failure_single_error_response (reg : ToolRegistry) (s : Sess)
    (callId name params msg : String)
    (handler : Option String → String → Except String String)
    (hreg : reg name = some handler) (hfail : handler s.uuid params = .error msg) :
    humeStep reg s (.toolCall callId name params) =
      (s, [.sendUp (.toolResponse callId
        (jsonErrorObj ("Error executing tool " ++ name ++ ": " ++ msg)))]) ∧
    ∃ pre post,
      jsonErrorObj ("Error executing tool " ++ name ++ ": " ++ msg) = pre ++ msg ++ post := by
  constructor
  · simp [humeStep, hreg, hfail]
  · refine ⟨"\x7b\"error\":\"" ++ ("Error executing tool " ++ name ++ ": "), "\"\x7d", ?_⟩
    simp [jsonErrorObj, String.append_assoc]

/-- C6 witness: a concrete failing handler is answered with one error
response carrying its message. -/
theorem handler_failure_response_witness :
    failingRegistry "t" = some failingHandler ∧
    failingHandler sess0.uuid "ps" = .error "boom" ∧
    (humeStep failingRegistry sess0 (.toolCall "B" "t" "ps") =
      (sess0, [.sendUp (.toolResponse "B"
        (jsonErrorObj ("Error executing tool " ++ "t" ++ ": " ++ "boom")))]) ∧
     ∃ pre post, jsonErrorObj ("Error executing tool " ++ "t" ++ ": " ++ "boom") =
        pre ++ "boom" ++ post) :=
  ⟨rfl, rfl, handler_failure_single_error_response failingRegistry sess0 "B" "t" "ps" "boom"
    failingHandler rfl rfl⟩

/-- C7: evaluating the client message handlers at a message that is not
valid JSON: the src/index.js handler (lines 405-434) has no try/catch
around JSON.parse, so the parse error propagates uncaught out of the
handler, and the src/src/index.ts catch branch (lines 208-211) closes the
client socket. Neither variant logs-and-drops with the session left open
as the claim states. -/
theorem malformed_client_json_throws :
    onClientDataJs sess0 none = .error "SyntaxError: JSON.parse" ∧
    (onClientDataTsMalformed sess0).1.clientOpen = false ∧
    (onClientDataTsMalformed sess0).2 = [Act.closeClient] :=
  ⟨rfl, rfl, rfl⟩

/-- C8 counterexample: after a first init (state CONNECTING, one dial), a
second init is not ignored: it increments the dial count (re-dials the
upstream peer) and overwrites the recorded uuid, changing session state. -/
theorem second_init_redials :
    (clientStep (clientStep sess0 (.init "u1")).1 (.init "u2")).1.dials = 2 ∧
    (clientStep sess0 (.init "u1")).1.dials = 1 ∧
    (clientStep sess0 (.init "u1")).1.ws ≠ none ∧
    (clientStep (clientStep sess0 (.init "u1")).1 (.init "u2")).1.uuid = some "u2" ∧
    (clientStep (clientStep sess0 (.init "u1")).1 (.init "u2")).1 ≠
      (clientStep sess0 (.init "u1")).1 := by decide

/-- C8 amended: an init message in any state (including non-INIT ones)
re-records the uuid and re-dials the upstream peer (fresh connecting
handle, dial count incremented); it is not treated as an error (no error
envelope, no close, no exception). -/
theorem init_always_redials (s : Sess) (u : String) :
    clientStep s (.init u) =
      ({ s with uuid := some u, ws := some WsSt.connecting, dials := s.dials + 1 }, []) := rfl

/-- C9: closing the client socket runs cleanup, which closes the upstream
socket whenever a handle is present, and closing the upstream socket
closes the client socket when it is still open; after cleanup the
upstream handle is nulled and the client marked closed, so a later audio
message attempts no send; and a second cleanup changes nothing and emits
no actions (double-close does not raise: the model stays total exactly
because of the nulled-handle and readyState guards of the source). -/
theorem teardown_symmetry (reg : ToolRegistry) (s : Sess) :
    (s.ws.isSome → Act.closeUp ∈ (stepJs reg s Ev.clientClose).2) ∧
    (s.clientOpen = true → Act.closeClient ∈ (stepJs reg s Ev.wsClose).2) ∧
    (cleanup s).1.ws = none ∧
    (cleanup s).1.clientOpen = false ∧
    (∀ a : Option String, (clientStep (cleanup s).1 (.audio a)).2 = []) ∧
    cleanup (cleanup s).1 = ((cleanup s).1, []) := by
  refine ⟨?_, ?_, rfl, rfl, ?_, rfl⟩
  · intro h
    simp [stepJs, cleanup, h]
  · intro h
    simp [stepJs, cleanup, h]
  · intro a
    cases ha : audioTruthy a <;> simp [clientStep, cleanup, ha]

/-- C9 witness: teardown from a session with an OPEN upstream socket and
an open client socket emits both close actions. -/
theorem teardown_symmetry_witness :
    Act.closeUp ∈ (stepJs emptyRegistry sessOpened Ev.clientClose).2 ∧
    Act.closeClient ∈ (stepJs emptyRegistry sessOpened Ev.wsClose).2 :=
  ⟨(teardown_symmetry emptyRegistry sessOpened).1 rfl,
   (teardown_symmetry emptyRegistry sessOpened).2.1 rfl⟩

end AvrHume
